import Mathlib

/-!
Shallow embedding of the mcp-skeleton repository's tool
registry / discovery / loader subsystem (`app/__init__.py`,
`app/tool_loader.py`), of `APIClient.build_url` (`app/tools/api_tools.py`)
and of `WebNavigator.navigate_to` (`app/tools/web_tools.py`).

Python strings are modelled as Lean `String`; the string primitives the
code uses (`startswith`, `endswith`, `strip`, `split(",")`, `s[:-3]`,
`rstrip('/')`, `lstrip('/')`) are re-implemented structurally on the
character list so that concrete instances evaluate by `rfl`/`decide`.
-/

set_option autoImplicit false

/-- Structural prefix test on character lists (used to model Python
`str.startswith` / `str.endswith`). -/
def listIsPre : List Char → List Char → Bool
  | [], _ => true
  | _ :: _, [] => false
  | a :: as, b :: bs => a = b && listIsPre as bs

/-- Python `s.startswith(p)`. -/
def pyStartsWith (s p : String) : Bool := listIsPre p.data s.data

/-- Python `s.endswith(p)`. -/
def pyEndsWith (s p : String) : Bool := listIsPre p.data.reverse s.data.reverse

/-- Python `s.strip()`: remove leading and trailing whitespace. -/
def pyStrip (s : String) : String :=
  ⟨((s.data.dropWhile Char.isWhitespace).reverse.dropWhile Char.isWhitespace).reverse⟩

/-- Helper for `pySplitComma`: accumulate the current chunk (reversed). -/
def splitCommaAux : List Char → List Char → List (List Char)
  | [], acc => [acc.reverse]
  | c :: cs, acc =>
      if c = ',' then acc.reverse :: splitCommaAux cs [] else splitCommaAux cs (c :: acc)

/-- Python `s.split(",")` (for non-empty `s` Python and this function agree;
the code only calls it after checking the string is truthy). -/
def pySplitComma (s : String) : List String :=
  (splitCommaAux s.data []).map (fun l => ⟨l⟩)

/-- Python `s.rstrip('/')`. -/
def pyRstripSlash (s : String) : String :=
  ⟨(s.data.reverse.dropWhile (fun c => c = '/')).reverse⟩

/-- Python `s.lstrip('/')`. -/
def pyLstripSlash (s : String) : String :=
  ⟨s.data.dropWhile (fun c => c = '/')⟩

/-- `APIClient.build_url` (src/app/tools/api_tools.py:35-51): absolute
endpoints pass through; otherwise join `base_url` and `endpoint` with a
single slash, stripping trailing slashes from the base and leading slashes
from the endpoint. -/
def build_url (base_url endpoint : String) : String :=
  if pyStartsWith endpoint "http://" || pyStartsWith endpoint "https://" then
    endpoint
  else
    pyRstripSlash base_url ++ "/" ++ pyLstripSlash endpoint

/-!
## Data model: Python callables, modules, interpreter/registry state

A Python callable is modelled by its `__name__`, an object identity (to
state identity-equality of handlers) and the optional `tool_definition`
attribute set by the `tool_definition` decorator; the only field of that
attribute the loader reads is `tool_definition.get('name')`, an optional
string.
-/

/-- A Python callable as the loader sees it: `py_name` is `__name__`,
`fid` its object identity, `tool_definition` is `none` when the attribute
is absent and `some n` when present with `.get('name') = n`. -/
structure PyFunc where
  py_name : String
  fid : Nat
  tool_definition : Option (Option String)
deriving DecidableEq, Repr

/-- A top-level attribute of a module: a callable, or any non-callable
value (ignored by the loader). -/
inductive PyAttr where
  | func (f : PyFunc)
  | value
deriving DecidableEq, Repr

/-- A module's top-level attributes, in `dir(module)` order. -/
abbrev PyModule := List PyAttr

/-- Outcome of `importlib.import_module(name)` for a given name:
the module's attributes, an `ImportError`, or a non-`ImportError`
exception raised by the module's top-level code. -/
inductive ImportOutcome where
  | ok (m : PyModule)
  | importError
  | otherError

/-- The import environment: what importing each dotted module path does. -/
abbrev ImportEnv := String → ImportOutcome

/-- The filesystem as discovery sees it: for a package path, the listing
of its backing directory (`os.listdir`), or `none` when listing raises
`FileNotFoundError`. -/
abbrev FS := String → Option (List String)

/-- Combined interpreter + `ToolRegistry` state: `loaded` models the keys
of `sys.modules` (module bodies already executed, hence not re-executed
on import), `registered_tools` the registry's insertion-ordered dict,
`tool_modules` and `mcp_tools` the other two mutable collections
(`ToolRegistry.tool_modules`, and the functions forwarded to
`FastMCP.tool()`). -/
structure PyState where
  loaded : List String
  registered_tools : List (String × PyFunc)
  tool_modules : List String
  mcp_tools : List PyFunc
deriving DecidableEq, Repr

/-- Python-dict insertion: overwrite in place when the key exists
(preserving its original position), append otherwise. -/
def dictInsert (m : List (String × PyFunc)) (k : String) (v : PyFunc) :
    List (String × PyFunc) :=
  if m.any (fun p => p.1 = k) then
    m.map (fun p => if p.1 = k then (k, v) else p)
  else
    m ++ [(k, v)]

/-- The keys of the registry dict, in insertion order. -/
def regKeys (m : List (String × PyFunc)) : List String := m.map Prod.fst

/-- Dict lookup: the value stored under `k`. -/
def regLookup (m : List (String × PyFunc)) (k : String) : Option PyFunc :=
  (m.find? (fun p => p.1 = k)).map Prod.snd

/-- `tool_name = name or func.__name__` (src/app/__init__.py:106): `None`
and the empty string are falsy, so both fall back to the callable's own
`__name__`. -/
def toolNameOf (func : PyFunc) (name : Option String) : String :=
  match name with
  | none => func.py_name
  | some s => if s = "" then func.py_name else s

/-- `ToolRegistry.register_tool` (src/app/__init__.py:104-110): store the
callable in `registered_tools` under the derived name and forward it to
the MCP instance. -/
def register_tool (st : PyState) (func : PyFunc) (name : Option String) : PyState :=
  { st with
      registered_tools := dictInsert st.registered_tools (toolNameOf func name) func,
      mcp_tools := st.mcp_tools ++ [func] }

/-- Semantics of `importlib.import_module`: the outcome is given by the
environment; a successful import executes the module's top-level code only
when the module is not already in `sys.modules`, then records it there.
The returned trace lists the module paths whose top-level code ran during
this call. -/
def importModule (env : ImportEnv) (st : PyState) (name : String) :
    ImportOutcome × PyState × List String :=
  match env name with
  | .ok m =>
      if name ∈ st.loaded then (.ok m, st, [])
      else (.ok m, { st with loaded := st.loaded ++ [name] }, [name])
  | .importError => (.importError, st, [])
  | .otherError => (.otherError, st, [])

/-- Registration pass over a module's attributes
(src/app/__init__.py:123-126): for every attribute that is callable and
carries `tool_definition`, register it under `tool_definition.get('name')`. -/
def registerModuleAttrs (m : PyModule) (st : PyState) : PyState :=
  m.foldl
    (fun s a =>
      match a with
      | .func f =>
          match f.tool_definition with
          | some tdName => register_tool s f tdName
          | none => s
      | .value => s)
    st

/-- Result of one `ToolRegistry.load_tools_from_module` call: the state
afterwards, the error-level log lines emitted, the modules whose top-level
code ran, and whether an exception escaped the call. -/
structure LoadOutcome where
  st : PyState
  errors : List String
  executed : List String
  raised : Bool
deriving Repr

/-- `ToolRegistry.load_tools_from_module` (src/app/__init__.py:116-131):
it imports the module, appends it to `tool_modules`, registers every
`tool_definition`-tagged callable; an `ImportError` is caught and logged,
any other exception from the import escapes to the caller. -/
def load_tools_from_module (env : ImportEnv) (st : PyState) (module_name : String) :
    LoadOutcome :=
  match importModule env st module_name with
  | (.ok m, st1, tr) =>
      let st2 := { st1 with tool_modules := st1.tool_modules ++ [module_name] }
      { st := registerModuleAttrs m st2, errors := [], executed := tr, raised := false }
  | (.importError, st1, tr) =>
      { st := st1,
        errors := ["Error loading tool module " ++ module_name],
        executed := tr, raised := false }
  | (.otherError, st1, tr) =>
      { st := st1, errors := [], executed := tr, raised := true }

/-- Result of a batch load (`load_tool_modules`) or of the auto driver:
final state, the returned count of loaded modules, error logs, executed
modules, attempted (trimmed) module paths, and whether the call itself
raised. -/
structure BatchResult where
  st : PyState
  count : Nat
  errors : List String
  executed : List String
  attempted : List String
  raised : Bool
deriving Repr

/-- The loop body of `load_tool_modules` (src/app/tool_loader.py:31-40):
for each path, call `load_tools_from_module(path.strip())`; count the
paths for which that call did not raise; any exception is caught
(`except Exception`) and logged. -/
def load_tool_modules_list (env : ImportEnv) (st : PyState) :
    List String → BatchResult
  | [] => { st := st, count := 0, errors := [], executed := [], attempted := [], raised := false }
  | p :: rest =>
      let r := load_tools_from_module env st (pyStrip p)
      let b := load_tool_modules_list env r.st rest
      { st := b.st,
        count := (if r.raised then 0 else 1) + b.count,
        errors := r.errors
          ++ (if r.raised then ["Failed to load tool module " ++ p] else [])
          ++ b.errors,
        executed := r.executed ++ b.executed,
        attempted := pyStrip p :: b.attempted,
        raised := false }

/-- The default value of the `MCP_TOOL_MODULES` environment variable
(src/app/tool_loader.py:28). -/
def defaultToolModules : String :=
  "app.tools.http_tools,app.tools.web_tools,app.tools.api_tools"

/-- `load_tool_modules` (src/app/tool_loader.py:16-40): when called with
`module_paths = None`, read the comma-separated `MCP_TOOL_MODULES`
environment variable (default list if unset, empty list if set to a falsy
string); then load each path. `envVar` is the value of `MCP_TOOL_MODULES`
(`none` = unset). -/
def load_tool_modules (envVar : Option String) (env : ImportEnv) (st : PyState)
    (module_paths : Option (List String)) : BatchResult :=
  let paths :=
    match module_paths with
    | some ps => ps
    | none =>
        let s := envVar.getD defaultToolModules
        if s = "" then [] else pySplitComma s
  load_tool_modules_list env st paths

/-- Result of `discover_tool_modules`: the returned module paths, the
state afterwards, error logs, executed modules, and whether an exception
escaped (only possible when the package's own top-level code raises a
non-`ImportError`, which `except (ImportError, FileNotFoundError)` does
not catch). -/
structure DiscoverResult where
  modules : List String
  st : PyState
  errors : List String
  executed : List String
  raised : Bool
deriving Repr

/-- The candidate-file test of discovery (src/app/tool_loader.py:60):
`file.endswith(".py") and not file.startswith("__")`. -/
def isCandidateFile (f : String) : Bool :=
  pyEndsWith f ".py" && !pyStartsWith f "__"

/-- `file[:-3]` (src/app/tool_loader.py:61): the filename with its last
three characters (the `.py` extension) removed. -/
def moduleNameOfFile (f : String) : String :=
  ⟨f.data.take (f.data.length - 3)⟩

/-- `discover_tool_modules` (src/app/tool_loader.py:42-70): import the
package, list its backing directory, and return one
`package_path ++ "." ++ basename` per candidate `.py` file; `ImportError`
and `FileNotFoundError` are caught, logged, and turned into an empty
result. -/
def discover_tool_modules (env : ImportEnv) (fs : FS) (st : PyState)
    (package_path : String) : DiscoverResult :=
  match importModule env st package_path with
  | (.ok _, st1, tr) =>
      match fs package_path with
      | some files =>
          { modules :=
              (files.filter isCandidateFile).map
                (fun f => package_path ++ "." ++ moduleNameOfFile f),
            st := st1, errors := [], executed := tr, raised := false }
      | none =>
          { modules := [], st := st1,
            errors := ["Error discovering modules in " ++ package_path],
            executed := tr, raised := false }
  | (.importError, st1, tr) =>
      { modules := [], st := st1,
        errors := ["Error discovering modules in " ++ package_path],
        executed := tr, raised := false }
  | (.otherError, st1, tr) =>
      { modules := [], st := st1, errors := [], executed := tr, raised := true }

/-- `auto_discover_and_load_tools` (src/app/tool_loader.py:72-80): run
discovery against the default package `"app.tools"` and pass the
discovered list — explicitly, never `None` — to `load_tool_modules`. -/
def auto_discover_and_load_tools (envVar : Option String) (env : ImportEnv)
    (fs : FS) (st : PyState) : BatchResult :=
  let d := discover_tool_modules env fs st "app.tools"
  if d.raised then
    { st := d.st, count := 0, errors := d.errors, executed := d.executed,
      attempted := [], raised := true }
  else
    let b := load_tool_modules envVar env d.st (some d.modules)
    { b with
        errors := d.errors ++ b.errors,
        executed := d.executed ++ b.executed }

/-!
## WebNavigator (src/app/tools/web_tools.py)

The HTTP fetch + HTML parse + content extraction of `navigate_to` is an
oracle `fetch : String → FetchResult`; everything inside the `try` block
up to the state update either yields a parsed page or raises, and
`_handle_request_error` converts the exception into an error dict.
`urljoin` is likewise an oracle, since only its use — not its output — is
at issue here.
-/

/-- Extracted page data returned by a successful navigation. -/
structure PageData where
  title : String
  content : String
  links : List (String × String)
  html : String
deriving DecidableEq, Repr

/-- Outcome of fetching + parsing a URL: a page, or an exception message. -/
inductive FetchResult where
  | ok (p : PageData)
  | err (msg : String)
deriving DecidableEq, Repr

/-- The `WebNavigator` instance state: `current_url` and `history`. -/
structure NavState where
  current_url : Option String
  history : List String
deriving DecidableEq, Repr

/-- What `navigate_to` returns: an error dict, or the structured page data
together with the resolved URL. -/
inductive NavOutcome where
  | errorDict (msg : String)
  | page (url : String) (p : PageData)
deriving DecidableEq, Repr

/-- Python truthiness of an optional string: `None` and `""` are falsy. -/
def truthyStr : Option String → Option String
  | some s => if s = "" then none else some s
  | none => none

/-- URL resolution step of `navigate_to`
(src/app/tools/web_tools.py:36-41): an absolute URL passes through; a
relative one is joined against `base_url or self.current_url`; when both
are falsy no full URL exists. -/
def resolveFull (urljoin : String → String → String) (st : NavState)
    (url : String) (base_url : Option String) : Option String :=
  if pyStartsWith url "http://" || pyStartsWith url "https://" then some url
  else
    match truthyStr base_url with
    | some b => some (urljoin b url)
    | none =>
        match truthyStr st.current_url with
        | some c => some (urljoin c url)
        | none => none

/-- `WebNavigator.navigate_to` (src/app/tools/web_tools.py:24-80): resolve
a relative URL against `base_url or self.current_url` (error dict when
both are falsy), fetch and parse it, and only on success set
`current_url` and append the URL to `history` when not already present. -/
def navigate_to (urljoin : String → String → String) (fetch : String → FetchResult)
    (st : NavState) (url : String) (base_url : Option String) :
    NavState × NavOutcome :=
  match resolveFull urljoin st url base_url with
  | none => (st, .errorDict "Cannot resolve relative URL without a base URL")
  | some full_url =>
      match fetch full_url with
      | .err e => (st, .errorDict e)
      | .ok p =>
          ({ current_url := some full_url,
             history :=
               if full_url ∈ st.history then st.history
               else st.history ++ [full_url] },
           .page full_url p)

/-- Whether importing `name` raises a non-`ImportError` exception — the
only way a load attempt escapes `load_tools_from_module` and is not
counted by `load_tool_modules`. -/
def importRaisesOther (env : ImportEnv) (name : String) : Bool :=
  match env name with
  | .otherError => true
  | _ => false

/-!
## A concrete scenario environment

The spec's test scenario: package `app.tools` whose directory holds
`a.py` (one tagged function `foo`), `b.py` (no tagged functions) and
`__init__.py`; an unrelated importable module `pkg.custom` for the
environment-variable override experiments.
-/

/-- The tagged function `foo` of scenario module `a`. -/
def fooFunc : PyFunc := ⟨"foo", 1, some (some "foo")⟩

/-- Scenario filesystem: only `app.tools` has a backing directory. -/
def scenFS : FS := fun n =>
  if n = "app.tools" then some ["a.py", "b.py", "__init__.py"] else none

/-- Scenario import environment. -/
def scenEnv : ImportEnv := fun n =>
  if n = "app.tools" then .ok []
  else if n = "app.tools.a" then .ok [.func fooFunc]
  else if n = "app.tools.b" then .ok []
  else if n = "pkg.custom" then .ok []
  else .importError

/-- The empty starting state: nothing imported, nothing registered. -/
def st0 : PyState := ⟨[], [], [], []⟩

/-!
## Helper lemmas
-/

/-- If `p` is a structural prefix of `l`, then `l` begins with `p`. -/
theorem listIsPre_append (p l : List Char) (h : listIsPre p l = true) :
    l = p ++ l.drop p.length := by
  induction p generalizing l with
  | nil => simp
  | cons a as ih =>
      cases l with
      | nil => simp [listIsPre] at h
      | cons b bs =>
          simp only [listIsPre, Bool.and_eq_true, decide_eq_true_eq] at h
          obtain ⟨rfl, h2⟩ := h
          simpa using ih bs h2

/-- A candidate filename really ends in `".py"`, and `moduleNameOfFile`
removes exactly that extension. -/
theorem moduleNameOfFile_spec (f : String) (h : pyEndsWith f ".py" = true) :
    moduleNameOfFile f ++ ".py" = f := by
  have h' : listIsPre ['y', 'p', '.'] f.data.reverse = true := h
  obtain ⟨t, ht⟩ : ∃ t, f.data.reverse = ['y', 'p', '.'] ++ t :=
    ⟨_, listIsPre_append _ _ h'⟩
  have hfd : f.data = t.reverse ++ ['.', 'p', 'y'] := by
    calc f.data = f.data.reverse.reverse := by simp
      _ = (['y', 'p', '.'] ++ t).reverse := by rw [ht]
      _ = t.reverse ++ ['.', 'p', 'y'] := by simp
  have hlen : f.data.length - 3 = t.reverse.length := by
    rw [hfd]; simp
  have htake : f.data.take (f.data.length - 3) = t.reverse := by
    rw [hlen, hfd]
    exact List.take_left _ _
  apply String.ext
  show f.data.take (f.data.length - 3) ++ ['.', 'p', 'y'] = f.data
  rw [htake]
  exact hfd.symm

/-- Claim C9: URL building for GET-style API tools joins base URL and
endpoint with exactly one slash: `build_url` applied to endpoint `"/users"`
with base URL `"https://api.example.com/"` returns
`"https://api.example.com/users"` — no duplicated slash, no lost
path segment. -/
theorem build_url_single_slash_example :
    build_url "https://api.example.com/" "/users" = "https://api.example.com/users" := by
  decide

/-- Replacing the value at key `k` does not change the key list. -/
theorem regKeys_dictInsert_of_mem (m : List (String × PyFunc)) (k : String) (v : PyFunc)
    (h : k ∈ regKeys m) : regKeys (dictInsert m k v) = regKeys m := by
  obtain ⟨p, hp, hpk⟩ := List.mem_map.mp h
  have hany : (m.any fun q => decide (q.1 = k)) = true :=
    List.any_eq_true.mpr ⟨p, hp, by simp [hpk]⟩
  unfold dictInsert
  rw [if_pos hany]
  unfold regKeys
  rw [List.map_map]
  apply List.map_congr_left
  intro q _
  by_cases hqk : q.1 = k <;> simp [hqk]

/-- `find?` over the key-`k`-replaced list yields the new pair exactly when
`k` occurs. -/
theorem find?_map_replace (l : List (String × PyFunc)) (k : String) (v : PyFunc) :
    ((l.map fun p => if p.1 = k then (k, v) else p).find? fun q => decide (q.1 = k)) =
      if (l.any fun p => decide (p.1 = k)) then some (k, v) else none := by
  induction l with
  | nil => simp
  | cons p ps ih =>
      by_cases hpk : p.1 = k
      · simp [hpk, List.find?]
      · simp only [List.map_cons, List.any_cons, if_neg hpk]
        rw [List.find?_cons_of_neg _ (by simp [hpk])]
        rw [ih]
        by_cases h2 : (ps.any fun p => decide (p.1 = k)) = true
        · have h3 : (decide (p.1 = k) || ps.any fun q => decide (q.1 = k)) = true := by
            rw [h2, Bool.or_true]
          rw [if_pos h2, if_pos h3]
        · rw [if_neg h2, if_neg]
          intro hcontra
          apply h2
          simp only [Bool.or_eq_true, decide_eq_true_eq] at hcontra
          rcases hcontra with hc | hc
          · exact absurd hc hpk
          · exact hc

/-- After a dict insert, looking up the inserted key returns the new value. -/
theorem regLookup_dictInsert_self (m : List (String × PyFunc)) (k : String) (v : PyFunc) :
    regLookup (dictInsert m k v) k = some v := by
  unfold regLookup dictInsert
  by_cases hany : (m.any fun p => decide (p.1 = k)) = true
  · rw [if_pos hany, find?_map_replace, if_pos hany]
    rfl
  · rw [if_neg hany]
    have hnone : (m.find? fun q => decide (q.1 = k)) = none := by
      rw [List.find?_eq_none]
      intro x hx
      simp only [decide_eq_true_eq]
      intro hxk
      exact hany (List.any_eq_true.mpr ⟨x, hx, by simp [hxk]⟩)
    rw [List.find?_append, hnone]
    simp

/-- Claim C7: tool names stay unique in the registry: registering a name
that already exists overwrites the prior entry's handler without raising,
and the entry keeps its original first-insertion position (the key list in
registration order is unchanged). -/
theorem register_tool_overwrite_keeps_position (st : PyState) (f : PyFunc)
    (name : Option String) (h : toolNameOf f name ∈ regKeys st.registered_tools) :
    regKeys (register_tool st f name).registered_tools = regKeys st.registered_tools ∧
    regLookup (register_tool st f name).registered_tools (toolNameOf f name) = some f :=
  ⟨regKeys_dictInsert_of_mem _ _ _ h, regLookup_dictInsert_self _ _ _⟩

/-- Witness for C7: re-registering name `"t"` in a registry holding
`"t"` then `"u"` keeps the order `["t", "u"]` and swaps the handler. -/
theorem register_tool_overwrite_keeps_position_w :
    regKeys (register_tool ⟨[], [("t", ⟨"old", 0, none⟩), ("u", ⟨"u", 2, none⟩)], [], []⟩
        ⟨"new", 1, none⟩ (some "t")).registered_tools = ["t", "u"] ∧
    regLookup (register_tool ⟨[], [("t", ⟨"old", 0, none⟩), ("u", ⟨"u", 2, none⟩)], [], []⟩
        ⟨"new", 1, none⟩ (some "t")).registered_tools "t" = some ⟨"new", 1, none⟩ := by
  have h := register_tool_overwrite_keeps_position
      ⟨[], [("t", ⟨"old", 0, none⟩), ("u", ⟨"u", 2, none⟩)], [], []⟩
      ⟨"new", 1, none⟩ (some "t") (by decide)
  exact ⟨h.1.trans (by decide), h.2⟩

/-- Claim C8: registering a callable with the name argument omitted stores
it under the callable's own identifier: when the handler's `__name__` is
`"ping"`, the registry afterwards maps `"ping"` to that very handler. -/
theorem register_tool_derived_name (st : PyState) (f : PyFunc) (h : f.py_name = "ping") :
    regLookup (register_tool st f none).registered_tools "ping" = some f := by
  have hname : toolNameOf f none = "ping" := by simp [toolNameOf, h]
  rw [← hname]
  exact regLookup_dictInsert_self _ _ _

/-- Witness for C8: a fresh registry, a handler named `"ping"`. -/
theorem register_tool_derived_name_w :
    regLookup (register_tool ⟨[], [], [], []⟩ ⟨"ping", 7, none⟩ none).registered_tools
      "ping" = some ⟨"ping", 7, none⟩ :=
  register_tool_derived_name ⟨[], [], [], []⟩ ⟨"ping", 7, none⟩ rfl

/-- Claim C5: for a module path whose import raises `ImportError`,
`load_tools_from_module` logs an error, leaves `registered_tools`
unchanged, and does not raise to its caller. -/
theorem load_tools_import_error_silent (env : ImportEnv) (st : PyState) (m : String)
    (h : env m = .importError) :
    (load_tools_from_module env st m).st.registered_tools = st.registered_tools ∧
    (load_tools_from_module env st m).errors ≠ [] ∧
    (load_tools_from_module env st m).raised = false := by
  simp [load_tools_from_module, importModule, h]

/-- Witness for C5: an environment where every import raises
`ImportError`. -/
theorem load_tools_import_error_silent_w :
    (load_tools_from_module (fun _ => .importError) ⟨[], [], [], []⟩
        "app.tools.missing").st.registered_tools = [] ∧
    (load_tools_from_module (fun _ => .importError) ⟨[], [], [], []⟩
        "app.tools.missing").errors ≠ [] ∧
    (load_tools_from_module (fun _ => .importError) ⟨[], [], [], []⟩
        "app.tools.missing").raised = false :=
  load_tools_import_error_silent (fun _ => .importError) ⟨[], [], [], []⟩
    "app.tools.missing" rfl

/-- Claim C6: when the package cannot be resolved (`ImportError`) or its
directory cannot be listed (`FileNotFoundError`), `discover_tool_modules`
returns the empty sequence, logs the error, and does not raise. -/
theorem discover_failure_empty (env : ImportEnv) (fs : FS) (st : PyState) (pk : String)
    (h : env pk = .importError ∨ ((∃ m, env pk = .ok m) ∧ fs pk = none)) :
    (discover_tool_modules env fs st pk).modules = [] ∧
    (discover_tool_modules env fs st pk).errors ≠ [] ∧
    (discover_tool_modules env fs st pk).raised = false := by
  rcases h with h | ⟨⟨m, hm⟩, hfs⟩
  · simp [discover_tool_modules, importModule, h]
  · by_cases hl : pk ∈ st.loaded <;>
      simp [discover_tool_modules, importModule, hm, hfs, hl]

/-- Witness for C6: a package that imports fine but whose directory
listing fails. -/
theorem discover_failure_empty_w :
    (discover_tool_modules (fun _ => .ok []) (fun _ => none) ⟨[], [], [], []⟩
        "app.tools").modules = [] ∧
    (discover_tool_modules (fun _ => .ok []) (fun _ => none) ⟨[], [], [], []⟩
        "app.tools").errors ≠ [] ∧
    (discover_tool_modules (fun _ => .ok []) (fun _ => none) ⟨[], [], [], []⟩
        "app.tools").raised = false :=
  discover_failure_empty (fun _ => .ok []) (fun _ => none) ⟨[], [], [], []⟩
    "app.tools" (Or.inr ⟨⟨[], rfl⟩, rfl⟩)

/-- Claim C1: for a package whose backing directory contains N source
files ending in `".py"` whose names do not begin with `"__"`,
`discover_tool_modules` returns exactly N module paths, each equal to
`package_path ++ "." ++` the file's base name with its `".py"` extension
removed. -/
theorem discover_returns_candidates (env : ImportEnv) (fs : FS) (st : PyState)
    (pk : String) (files : List String) (m : PyModule)
    (hok : env pk = .ok m) (hfs : fs pk = some files) :
    (discover_tool_modules env fs st pk).modules =
      (files.filter isCandidateFile).map (fun f => pk ++ "." ++ moduleNameOfFile f) ∧
    (discover_tool_modules env fs st pk).modules.length =
      (files.filter isCandidateFile).length ∧
    ∀ f ∈ files.filter isCandidateFile, moduleNameOfFile f ++ ".py" = f := by
  have hmods : (discover_tool_modules env fs st pk).modules =
      (files.filter isCandidateFile).map (fun f => pk ++ "." ++ moduleNameOfFile f) := by
    by_cases hl : pk ∈ st.loaded <;>
      simp [discover_tool_modules, importModule, hok, hfs, hl]
  refine ⟨hmods, ?_, ?_⟩
  · rw [hmods, List.length_map]
  · intro f hf
    have hcand := (List.mem_filter.mp hf).2
    have hpy : pyEndsWith f ".py" = true := by
      simp only [isCandidateFile, Bool.and_eq_true] at hcand
      exact hcand.1
    exact moduleNameOfFile_spec f hpy

/-- Witness for C1: directory `["a.py", "__init__.py", "b.txt", "c.py"]`
yields exactly `["p.a", "p.c"]`. -/
theorem discover_returns_candidates_w :
    (discover_tool_modules (fun n => if n = "p" then .ok [] else .importError)
        (fun n => if n = "p" then some ["a.py", "__init__.py", "b.txt", "c.py"] else none)
        ⟨[], [], [], []⟩ "p").modules = ["p.a", "p.c"] ∧
    (discover_tool_modules (fun n => if n = "p" then .ok [] else .importError)
        (fun n => if n = "p" then some ["a.py", "__init__.py", "b.txt", "c.py"] else none)
        ⟨[], [], [], []⟩ "p").modules.length = 2 := by
  have h := discover_returns_candidates
      (fun n => if n = "p" then .ok [] else .importError)
      (fun n => if n = "p" then some ["a.py", "__init__.py", "b.txt", "c.py"] else none)
      ⟨[], [], [], []⟩ "p" ["a.py", "__init__.py", "b.txt", "c.py"] [] rfl rfl
  exact ⟨h.1.trans (by decide), h.2.1.trans (by decide)⟩

/-- Claim C10: navigation state mutation is atomic with respect to errors:
whenever `navigate_to` returns an error result (unresolvable relative URL,
or failed fetch/parse), `current_url` and `history` are unchanged;
`current_url` is updated and the URL appended to `history` — only when not
already present, preserving freedom from duplicates — solely after a
successful fetch and parse. -/
theorem navigate_to_atomic (urljoin : String → String → String)
    (fetch : String → FetchResult) (st : NavState) (url : String)
    (base_url : Option String) :
    (∀ e, (navigate_to urljoin fetch st url base_url).2 = .errorDict e →
      (navigate_to urljoin fetch st url base_url).1 = st) ∧
    (∀ full p, (navigate_to urljoin fetch st url base_url).2 = .page full p →
      (navigate_to urljoin fetch st url base_url).1.current_url = some full ∧
      (navigate_to urljoin fetch st url base_url).1.history =
        (if full ∈ st.history then st.history else st.history ++ [full]) ∧
      (st.history.Nodup →
        (navigate_to urljoin fetch st url base_url).1.history.Nodup)) := by
  cases hres : resolveFull urljoin st url base_url with
  | none =>
      constructor
      · intro e _
        simp [navigate_to, hres]
      · intro full p hp
        simp [navigate_to, hres] at hp
  | some full_url =>
      cases hf : fetch full_url with
      | err e0 =>
          constructor
          · intro e _
            simp [navigate_to, hres, hf]
          · intro full p hp
            simp [navigate_to, hres, hf] at hp
      | ok p0 =>
          constructor
          · intro e he
            simp [navigate_to, hres, hf] at he
          · intro full p hp
            simp only [navigate_to, hres, hf] at hp ⊢
            obtain ⟨rfl, -⟩ := NavOutcome.page.inj hp
            refine ⟨rfl, rfl, ?_⟩
            intro hnd
            by_cases hmem : full_url ∈ st.history
            · simpa [hmem] using hnd
            · rw [if_neg hmem, List.nodup_append]
              refine ⟨hnd, List.nodup_singleton _, ?_⟩
              intro a ha hb
              rw [List.mem_singleton] at hb
              subst hb
              exact hmem ha

/-- Witness for C10: a fetch that always fails leaves the navigator state
untouched, and a successful fetch appends to the history. -/
theorem navigate_to_atomic_w :
    (navigate_to (fun _ _ => "") (fun _ => .err "boom")
        ⟨some "http://x", ["http://x"]⟩ "http://y" none).1 =
      ⟨some "http://x", ["http://x"]⟩ ∧
    (navigate_to (fun _ _ => "") (fun _ => .ok ⟨"t", "c", [], "h"⟩)
        ⟨some "http://x", ["http://x"]⟩ "http://y" none).1.history =
      ["http://x", "http://y"] := by
  constructor
  · exact (navigate_to_atomic (fun _ _ => "") (fun _ => .err "boom")
      ⟨some "http://x", ["http://x"]⟩ "http://y" none).1 "boom" rfl
  · have h := (navigate_to_atomic (fun _ _ => "") (fun _ => .ok ⟨"t", "c", [], "h"⟩)
      ⟨some "http://x", ["http://x"]⟩ "http://y" none).2 "http://y" ⟨"t", "c", [], "h"⟩ rfl
    exact h.2.1.trans (by decide)

/-- A load attempt raises out of `load_tools_from_module` exactly when
the import raises a non-`ImportError` exception. -/
theorem load_tools_raised_iff (env : ImportEnv) (st : PyState) (m : String) :
    (load_tools_from_module env st m).raised = importRaisesOther env m := by
  cases h : env m with
  | ok mod =>
      by_cases hl : m ∈ st.loaded <;>
        simp [load_tools_from_module, importModule, importRaisesOther, h, hl]
  | importError => simp [load_tools_from_module, importModule, importRaisesOther, h]
  | otherError => simp [load_tools_from_module, importModule, importRaisesOther, h]

/-- The count returned by the loader loop is the number of (trimmed) paths
whose load attempt did not raise — regardless of how many tools each
module contributed. -/
theorem load_list_count (env : ImportEnv) :
    ∀ (paths : List String) (st : PyState),
    (load_tool_modules_list env st paths).count =
      (paths.filter fun p => !importRaisesOther env (pyStrip p)).length := by
  intro paths
  induction paths with
  | nil => intro st; simp [load_tool_modules_list]
  | cons p rest ih =>
      intro st
      simp only [load_tool_modules_list]
      rw [load_tools_raised_iff, ih]
      cases hio : importRaisesOther env (pyStrip p) <;>
        simp [List.filter_cons, hio]
      omega

/-- Claim C4: `auto_discover_and_load_tools` returns the number of
discovered modules whose load attempt itself did not raise, counting
modules that contributed zero tools. -/
theorem auto_count_not_raised (envVar : Option String) (env : ImportEnv) (fs : FS)
    (st : PyState)
    (h : (discover_tool_modules env fs st "app.tools").raised = false) :
    (auto_discover_and_load_tools envVar env fs st).count =
      ((discover_tool_modules env fs st "app.tools").modules.filter
        (fun p => !importRaisesOther env (pyStrip p))).length := by
  unfold auto_discover_and_load_tools
  rw [if_neg (by simp [h])]
  exact load_list_count env _ _

/-- Witness for C4: the spec scenario — `a.py` holding one tagged function
and `b.py` holding none — yields return value 2 while only `foo` is
registered. -/
theorem auto_count_not_raised_w :
    (auto_discover_and_load_tools none scenEnv scenFS st0).count = 2 ∧
    regKeys (auto_discover_and_load_tools none scenEnv scenFS st0).st.registered_tools
      = ["foo"] := by
  have h := auto_count_not_raised none scenEnv scenFS st0 (by decide)
  exact ⟨h.trans (by decide), by decide⟩

/-- The loader loop attempts exactly the trimmed input paths, in order. -/
theorem load_list_attempted (env : ImportEnv) :
    ∀ (paths : List String) (st : PyState),
    (load_tool_modules_list env st paths).attempted = paths.map pyStrip := by
  intro paths
  induction paths with
  | nil => intro st; simp [load_tool_modules_list]
  | cons p rest ih =>
      intro st
      simp only [load_tool_modules_list, List.map_cons]
      rw [ih]

/-- Counterexample to claim C3 as stated: with `MCP_TOOL_MODULES` set to
`"pkg.custom"` (an importable module), `auto_discover_and_load_tools`
still attempts exactly the discovered modules `app.tools.a` and
`app.tools.b`, not `pkg.custom` — the environment variable does not
bypass discovery in the auto entry point, because the discovered list is
always passed explicitly to `load_tool_modules`. -/
theorem auto_ignores_env_override :
    (auto_discover_and_load_tools (some "pkg.custom") scenEnv scenFS st0).attempted
      = ["app.tools.a", "app.tools.b"] ∧
    "pkg.custom" ∉
      (auto_discover_and_load_tools (some "pkg.custom") scenEnv scenFS st0).attempted := by
  constructor
  · decide
  · decide

/-- Claim C3 (amended): the environment-variable override never affects
`auto_discover_and_load_tools` (its result is the same for any value of
`MCP_TOOL_MODULES`); the variable is honored only when
`load_tool_modules` is called with `module_paths = None`, in which case
the modules attempted are exactly the (trimmed) entries of the
comma-separated list and Discovery is not consulted at all. -/
theorem env_override_only_without_explicit_paths (envVar1 envVar2 : Option String)
    (env : ImportEnv) (fs : FS) (st st2 : PyState) (s : String) (hs : s ≠ "") :
    auto_discover_and_load_tools envVar1 env fs st =
      auto_discover_and_load_tools envVar2 env fs st ∧
    (load_tool_modules (some s) env st2 none).attempted =
      (pySplitComma s).map pyStrip := by
  constructor
  · rfl
  · show (load_tool_modules_list env st2
        (if s = "" then [] else pySplitComma s)).attempted =
      (pySplitComma s).map pyStrip
    rw [if_neg hs]
    exact load_list_attempted env _ _

/-- Witness for C3 (amended): `MCP_TOOL_MODULES = "m.one, m.two"` makes
`load_tool_modules(None)` attempt exactly `m.one` and `m.two`. -/
theorem env_override_only_without_explicit_paths_w :
    auto_discover_and_load_tools (some "x") scenEnv scenFS st0 =
      auto_discover_and_load_tools none scenEnv scenFS st0 ∧
    (load_tool_modules (some "m.one, m.two") scenEnv st0 none).attempted =
      ["m.one", "m.two"] := by
  have h := env_override_only_without_explicit_paths (some "x") none scenEnv scenFS
      st0 st0 "m.one, m.two" (by decide)
  exact ⟨h.1, h.2.trans (by decide)⟩

/-- Registering a module's tagged callables never touches `sys.modules`. -/
theorem registerModuleAttrs_loaded (m : PyModule) (s : PyState) :
    (registerModuleAttrs m s).loaded = s.loaded := by
  induction m generalizing s with
  | nil => rfl
  | cons a as ih =>
      simp only [registerModuleAttrs, List.foldl_cons] at ih ⊢
      rw [ih]
      cases a with
      | func f =>
          obtain ⟨n, i, td⟩ := f
          cases td <;> rfl
      | value => rfl

/-- Trace invariants of one load: the executed trace is duplicate-free,
only contains modules not previously in `sys.modules`, all of which are
recorded there afterwards; `sys.modules` only grows. -/
theorem load_tools_exec_inv (env : ImportEnv) (st : PyState) (m : String) :
    (load_tools_from_module env st m).executed.Nodup ∧
    (∀ x ∈ (load_tools_from_module env st m).executed, x ∉ st.loaded) ∧
    (∀ x ∈ (load_tools_from_module env st m).executed,
      x ∈ (load_tools_from_module env st m).st.loaded) ∧
    st.loaded ⊆ (load_tools_from_module env st m).st.loaded := by
  cases h : env m with
  | ok mod =>
      by_cases hl : m ∈ st.loaded
      · simp [load_tools_from_module, importModule, h, hl, registerModuleAttrs_loaded]
      · simp [load_tools_from_module, importModule, h, hl, registerModuleAttrs_loaded,
          List.subset_append_left]
  | importError => simp [load_tools_from_module, importModule, h]
  | otherError => simp [load_tools_from_module, importModule, h]

/-- Trace invariants of the loader loop: duplicate-freedom and growth of
`sys.modules`, lifted from `load_tools_exec_inv`. -/
theorem load_list_exec_inv (env : ImportEnv) :
    ∀ (paths : List String) (st : PyState),
    (load_tool_modules_list env st paths).executed.Nodup ∧
    (∀ x ∈ (load_tool_modules_list env st paths).executed, x ∉ st.loaded) ∧
    st.loaded ⊆ (load_tool_modules_list env st paths).st.loaded ∧
    (∀ x ∈ (load_tool_modules_list env st paths).executed,
      x ∈ (load_tool_modules_list env st paths).st.loaded) := by
  intro paths
  induction paths with
  | nil =>
      intro st
      simp [load_tool_modules_list, List.Subset.refl]
  | cons p rest ih =>
      intro st
      obtain ⟨h1, h2, h3, h4⟩ := load_tools_exec_inv env st (pyStrip p)
      obtain ⟨i1, i2, i3, i4⟩ := ih (load_tools_from_module env st (pyStrip p)).st
      simp only [load_tool_modules_list]
      refine ⟨?_, ?_, ?_, ?_⟩
      · rw [List.nodup_append]
        refine ⟨h1, i1, ?_⟩
        intro x hx hx2
        exact i2 x hx2 (h3 x hx)
      · intro x hx
        rcases List.mem_append.mp hx with hx | hx
        · exact h2 x hx
        · intro hmem
          exact i2 x hx (h4 hmem)
      · exact h4.trans i3
      · intro x hx
        rcases List.mem_append.mp hx with hx | hx
        · exact i3 (h3 x hx)
        · exact i4 x hx

/-- Trace invariants of discovery: at most the package itself is executed,
and it lands in `sys.modules`, which only grows. -/
theorem discover_exec_inv (env : ImportEnv) (fs : FS) (st : PyState) (pk : String) :
    ((discover_tool_modules env fs st pk).executed = [] ∨
      (discover_tool_modules env fs st pk).executed = [pk]) ∧
    (∀ x ∈ (discover_tool_modules env fs st pk).executed,
      x ∈ (discover_tool_modules env fs st pk).st.loaded) ∧
    st.loaded ⊆ (discover_tool_modules env fs st pk).st.loaded := by
  cases h : env pk with
  | ok mod =>
      by_cases hl : pk ∈ st.loaded
      · cases hfs : fs pk <;>
          simp [discover_tool_modules, importModule, h, hl, hfs, List.Subset.refl]
      · cases hfs : fs pk <;>
          simp [discover_tool_modules, importModule, h, hl, hfs,
            List.subset_append_left]
  | importError => simp [discover_tool_modules, importModule, h, List.Subset.refl]
  | otherError => simp [discover_tool_modules, importModule, h, List.Subset.refl]

/-- Every discovered module path has the form `pk ++ "." ++ basename`. -/
theorem discover_modules_shape (env : ImportEnv) (fs : FS) (st : PyState) (pk : String) :
    ∀ m ∈ (discover_tool_modules env fs st pk).modules, ∃ x, m = pk ++ "." ++ x := by
  intro m hm
  cases h : env pk with
  | ok mod =>
      cases hfs : fs pk with
      | some files =>
          by_cases hl : pk ∈ st.loaded <;>
            · simp [discover_tool_modules, importModule, h, hfs, hl] at hm
              obtain ⟨f, -, hf⟩ := hm
              exact ⟨moduleNameOfFile f, hf.symm⟩
      | none =>
          by_cases hl : pk ∈ st.loaded <;>
            simp [discover_tool_modules, importModule, h, hfs, hl] at hm
  | importError => simp [discover_tool_modules, importModule, h] at hm
  | otherError => simp [discover_tool_modules, importModule, h] at hm

/-- A dotted module path under `pk` is never `pk` itself. -/
theorem append_dot_ne (pk x : String) : pk ++ "." ++ x ≠ pk := by
  intro h
  have hlen := congrArg String.length h
  rw [String.length_append, String.length_append] at hlen
  have hone : ("." : String).length = 1 := rfl
  omega

/-- Counterexample to claim C2 as stated: on a first discovery pass over
the scenario environment, `discover_tool_modules` itself calls
`importlib.import_module("app.tools")` (src/app/tool_loader.py:55),
executing the package initializer's top-level code — its executed-module
trace is `["app.tools"]`, not empty, so Discovery is not import-free. -/
theorem discovery_executes_package_init :
    (discover_tool_modules scenEnv scenFS st0 "app.tools").executed = ["app.tools"] ∧
    (discover_tool_modules scenEnv scenFS st0 "app.tools").executed ≠ [] := by
  constructor
  · decide
  · decide

/-- Claim C2 (amended): Discovery imports at most the package itself (to
resolve its backing directory) and never any of the candidate modules it
enumerates; the Loader is the only component that executes a candidate
module's top-level code, and across one `auto_discover_and_load_tools`
pass each module path's top-level code runs at most once (the executed
trace is duplicate-free). -/
theorem discovery_imports_only_the_package (envVar : Option String) (env : ImportEnv)
    (fs : FS) (st : PyState) (pk : String) :
    ((discover_tool_modules env fs st pk).executed = [] ∨
      (discover_tool_modules env fs st pk).executed = [pk]) ∧
    (∀ m ∈ (discover_tool_modules env fs st pk).modules,
      m ∉ (discover_tool_modules env fs st pk).executed) ∧
    (auto_discover_and_load_tools envVar env fs st).executed.Nodup := by
  obtain ⟨hor, -, -⟩ := discover_exec_inv env fs st pk
  refine ⟨hor, ?_, ?_⟩
  · intro m hm hcon
    obtain ⟨x, rfl⟩ := discover_modules_shape env fs st pk m hm
    rcases hor with h | h
    · rw [h] at hcon
      exact List.not_mem_nil _ hcon
    · rw [h] at hcon
      rw [List.mem_singleton] at hcon
      exact append_dot_ne pk x hcon
  · obtain ⟨hor2, hin2, -⟩ := discover_exec_inv env fs st "app.tools"
    obtain ⟨b1, b2, -, -⟩ := load_list_exec_inv env
        (discover_tool_modules env fs st "app.tools").modules
        (discover_tool_modules env fs st "app.tools").st
    unfold auto_discover_and_load_tools
    by_cases hr : (discover_tool_modules env fs st "app.tools").raised = true
    · rw [if_pos hr]
      show (discover_tool_modules env fs st "app.tools").executed.Nodup
      rcases hor2 with h | h <;> rw [h] <;> simp
    · rw [if_neg hr]
      show ((discover_tool_modules env fs st "app.tools").executed ++
        (load_tool_modules envVar env (discover_tool_modules env fs st "app.tools").st
          (some (discover_tool_modules env fs st "app.tools").modules)).executed).Nodup
      rw [List.nodup_append]
      refine ⟨?_, b1, ?_⟩
      · rcases hor2 with h | h <;> rw [h] <;> simp
      · intro x hx hx2
        exact b2 x hx2 (hin2 x hx)

/-- Witness for C2 (amended): in the scenario, `app.tools.a` is discovered
but not executed by Discovery, and the full auto pass executes each module
at most once. -/
theorem discovery_imports_only_the_package_w :
    ("app.tools.a" ∈ (discover_tool_modules scenEnv scenFS st0 "app.tools").modules) ∧
    "app.tools.a" ∉ (discover_tool_modules scenEnv scenFS st0 "app.tools").executed ∧
    (auto_discover_and_load_tools none scenEnv scenFS st0).executed.Nodup := by
  have h := discovery_imports_only_the_package none scenEnv scenFS st0 "app.tools"
  exact ⟨by decide, h.2.1 "app.tools.a" (by decide), h.2.2⟩
